import Mathlib

/-!
Verification of the generic repository layer (`GenericRepo`, `QueryOptions`,
`applyQueryOptions`, `Get`, `List`, `Count`, `Transaction`, `WithTx`) and of the
API response helpers (`Success`, `SuccessNoData`, `Error`, `getRequestID`) of
the starter repository, against a shallow embedding of the Go source.

The underlying relational store (gorm) is an external collaborator: its query
builder is embedded as a `Query` value accumulating clauses, and its execution
primitives (`First`, `Find`, `Count`, `Transaction`) are modelled from their
documented semantics.  Condition strings are opaque to the repository; the
embedding therefore takes an arbitrary condition evaluator `CondEval` as a
parameter wherever queries are executed.
-/

/-- Representative entity row: a primary key and one payload field.  The Go
code is generic over any `Entity`; the claims do not depend on the entity
shape, so one concrete row type stands for `T`. -/
structure Row where
  id : Nat
  val : Nat
deriving DecidableEq, Repr

/-- State of a store handle (`gorm.DB`): the visible rows plus an optional
injected transport-level fault (modelling connectivity loss, constraint
violations and other non-not-found store errors). -/
structure DBState where
  rows : List Row
  fault : Option Nat
deriving DecidableEq, Repr

/-- Store-level errors: the gorm record-not-found sentinel
(`gorm.ErrRecordNotFound`), or any other store error (tagged by a number). -/
inductive StoreErr where
  | recordNotFound
  | other (n : Nat)
deriving DecidableEq, Repr

/-- Modelled from the spec: the domain error of the missing
`internal/errspec` and `internal/pkg/errorx` packages — "carries a stable
numeric code, a human-readable message, and (optionally) a wrapped underlying
cause".  The captured stack snapshot is diagnostic only and is omitted. -/
structure DomainErr where
  code : Nat
  msg : String
  wrapped : Option StoreErr
deriving DecidableEq, Repr

/-- Modelled from the spec: `Wrap` attaches the underlying cause. -/
def DomainErr.wrapE (d : DomainErr) (e : StoreErr) : DomainErr :=
  { d with wrapped := some e }

/-- Modelled from the spec: unwrapping a domain error yields its wrapped
cause. -/
def DomainErr.unwrapE (d : DomainErr) : Option StoreErr :=
  d.wrapped

/-- Modelled from the spec: predefined errors of `internal/errspec`.  Only the
distinctness of the stable codes matters; the numeric values are
representative. -/
def errNotFound : DomainErr := ⟨10001, "not found", none⟩

/-- Modelled from the spec: the record-does-not-exist domain error
(`errspec.ErrRecordNotExist`). -/
def errRecordNotExist : DomainErr := ⟨10002, "record does not exist", none⟩

/-- Modelled from the spec: the empty-query-parameter domain error
(`errspec.ErrQueryParamEmpty`). -/
def errQueryParamEmpty : DomainErr := ⟨10003, "query parameter is empty", none⟩

/-- Modelled from the spec: the unknown-error fallback (`errspec.ErrUnknown`). -/
def errUnknown : DomainErr := ⟨10000, "unknown error", none⟩

/-- Errors surfaced by repository operations: either a classified domain error
or a store error passed through unmodified. -/
inductive RepoErr where
  | domain (e : DomainErr)
  | store (e : StoreErr)
deriving DecidableEq, Repr

/-- Modelled from the spec: a generic query modifier of the missing
`internal/pkg/options` package — "an ordered sequence of generic modifiers
(ordering, row limiting, locking hints, etc.)". -/
inductive Opt where
  | orderBy (key : String) (desc : Bool)
  | limit (n : Int)
  | locking (hint : String)
deriving DecidableEq, Repr

/-- QueryOptions of the source: condition string, positional args, generic
modifiers, relation preloads.  Args are modelled as numbers (they are bound
positionally into the opaque condition and never inspected by the repository). -/
structure QueryOptions where
  Condition : String
  Args : List Nat
  Opts : List Opt
  Preloads : List String
deriving DecidableEq, Repr

/-- The gorm query-builder chain: the bound store handle plus the accumulated
clauses.  `Model`/`WithContext` select the table and propagate cancellation;
both are out of the modelled state (single entity type, no cancellation). -/
structure Query where
  db : DBState
  preloads : List String
  wheres : List (String × List Nat)
  orders : List (String × Bool)
  locks : List String
  qoffset : Option Int
  qlimit : Option Int
deriving DecidableEq, Repr

/-- Fresh builder chain on a handle (`db.WithContext(ctx)`). -/
def newQuery (db : DBState) : Query :=
  ⟨db, [], [], [], [], none, none⟩

/-- gorm `Preload`: records one relation to eagerly load.  Preloads affect only
result hydration via extra queries at `Find` time; they never change the
matched row set. -/
def Query.preloadQ (q : Query) (p : String) : Query :=
  { q with preloads := q.preloads ++ [p] }

/-- gorm `Where(cond, args...)`: conjoins one predicate clause. -/
def Query.whereQ (q : Query) (c : String) (args : List Nat) : Query :=
  { q with wheres := q.wheres ++ [(c, args)] }

/-- gorm `Offset`. -/
def Query.offsetQ (q : Query) (n : Int) : Query :=
  { q with qoffset := some n }

/-- gorm `Limit` (a later call overrides an earlier one). -/
def Query.limitQ (q : Query) (n : Int) : Query :=
  { q with qlimit := some n }

/-- Modelled from the spec: applying one generic modifier of the missing
`internal/pkg/options` package to the builder chain. -/
def applyOpt (q : Query) (o : Opt) : Query :=
  match o with
  | .orderBy k d => { q with orders := q.orders ++ [(k, d)] }
  | .limit n => q.limitQ n
  | .locking h => { q with locks := q.locks ++ [h] }

/-- Modelled from the spec: `options.Apply` applies each modifier in sequence
order. -/
def optionsApply (q : Query) (l : List Opt) : Query :=
  l.foldl applyOpt q

/-- An interpretation of the native condition syntax of the store: given the
condition string and its positional args, decide whether a row matches.
Conditions are opaque to the repository, so execution is parameterized by it. -/
def CondEval : Type :=
  String → List Nat → Row → Bool

/-- A row matches a chain when it satisfies every accumulated where clause. -/
def matchRow (ev : CondEval) (ws : List (String × List Nat)) (r : Row) : Bool :=
  ws.all fun w => ev w.1 w.2 r

/-- Column lookup for ordering. -/
def rowKey (k : String) (r : Row) : Nat :=
  if k = "id" then r.id else if k = "val" then r.val else 0

/-- Lexicographic comparison along the accumulated order-by clauses. -/
def ordLE (os : List (String × Bool)) (a b : Row) : Bool :=
  match os with
  | [] => true
  | (k, d) :: rest =>
    let x := rowKey k a
    let y := rowKey k b
    if (if d then y < x else x < y) then true
    else if (if d then x < y else y < x) then false
    else ordLE rest a b

/-- Insertion step of the sort used to model SQL ordering. -/
def insertLE (le : Row → Row → Bool) (r : Row) : List Row → List Row
  | [] => [r]
  | x :: xs => if le r x then r :: x :: xs else x :: insertLE le r xs

/-- Insertion sort of the result set along the order-by clauses. -/
def sortRows (os : List (String × Bool)) (l : List Row) : List Row :=
  l.foldr (insertLE (ordLE os)) []

/-- Result rows of executing a chain with `Find`: filter by the conjoined where
clauses, sort by the order clauses, then apply offset and limit (a negative
limit means no limit, as in gorm). -/
def execRows (ev : CondEval) (q : Query) : List Row :=
  let m := q.db.rows.filter (matchRow ev q.wheres)
  let m := sortRows q.orders m
  let m := m.drop (match q.qoffset with | some n => n.toNat | none => 0)
  match q.qlimit with
  | some n => if n < 0 then m else m.take n.toNat
  | none => m

/-- gorm `Find`: a faulty handle reports its store error, otherwise the
matching rows (never the record-not-found sentinel). -/
def storeFind (ev : CondEval) (q : Query) : Except StoreErr (List Row) :=
  match q.db.fault with
  | some n => .error (.other n)
  | none => .ok (execRows ev q)

/-- gorm `First`, optionally with an inline primary-key condition
(`First(&entity, id)`): conjoins the inline identity predicate, orders by the
accumulated order clauses and then by primary key, and takes the first row;
zero matching rows yield the record-not-found sentinel. -/
def storeFirst (ev : CondEval) (q : Query) (inlineId : Option Nat) : Except StoreErr Row :=
  match q.db.fault with
  | some n => .error (.other n)
  | none =>
    let p : Row → Bool :=
      match inlineId with
      | some i => fun r => matchRow ev q.wheres r && r.id == i
      | none => fun r => matchRow ev q.wheres r
    match sortRows (q.orders ++ [("id", false)]) (q.db.rows.filter p) with
    | [] => .error .recordNotFound
    | r :: _ => .ok r

/-- gorm `Count`: a faulty handle reports its store error, otherwise the number
of rows matching the conjoined where clauses (SQL `COUNT` ignores preloads,
ordering and locking hints). -/
def storeCount (ev : CondEval) (q : Query) : Except StoreErr Int :=
  match q.db.fault with
  | some n => .error (.other n)
  | none => .ok (q.db.rows.filter (matchRow ev q.wheres)).length

/-- The generic repository: a store handle and the configured not-found error
code. -/
structure GenericRepo where
  DB : DBState
  ErrorCode : Nat
deriving DecidableEq, Repr

/-- NewGenericRepo: binds the handle and defaults the code to
`errspec.ErrNotFound.Code()`. -/
def NewGenericRepo (db : DBState) : GenericRepo :=
  ⟨db, errNotFound.code⟩

/-- applyQueryOptions of the source: nil options leave the chain unchanged;
otherwise apply every preload, then (when any are present) the generic
modifiers via `options.Apply`, then the condition with its args when the
condition is non-empty. -/
def applyQueryOptions (query : Query) (opts : Option QueryOptions) : Query :=
  match opts with
  | none => query
  | some o =>
    let q1 := o.Preloads.foldl Query.preloadQ query
    let q2 := if o.Opts.length > 0 then optionsApply q1 o.Opts else q1
    if o.Condition ≠ "" then q2.whereQ o.Condition o.Args else q2

/-- The Query Option Model composition as the spec words it: (1) every preload
in sequence order, (2) every generic modifier in sequence order, (3) the
condition with its args (an empty condition imposes no predicate); nil options
leave the chain unchanged.  Stated separately from the transcription
`applyQueryOptions` so the two can be compared. -/
def applyQueryOptionsSpec (query : Query) (opts : Option QueryOptions) : Query :=
  match opts with
  | none => query
  | some o =>
    let q1 := o.Preloads.foldl Query.preloadQ query
    let q2 := optionsApply q1 o.Opts
    if o.Condition ≠ "" then q2.whereQ o.Condition o.Args else q2

/-- The store phase of `Get`: build the chain with the options applied, then
query by id when an id is supplied, else by condition when one is usable;
`none` means the early-return path that never invokes the store. -/
def getStoreResult (ev : CondEval) (db : DBState) (id : Option Nat)
    (opts : Option QueryOptions) : Option (Except StoreErr Row) :=
  let query := applyQueryOptions (newQuery db) opts
  match id with
  | some i => some (storeFirst ev query (some i))
  | none =>
    match opts with
    | some o => if o.Condition ≠ "" then some (storeFirst ev query none) else none
    | none => none

/-- Get of the source: on the no-id-no-condition path return the
empty-query-parameter domain error; map the record-not-found sentinel to the
record-not-exist domain error wrapping the sentinel; pass every other store
error through unmodified. -/
def GenericRepo.Get (ev : CondEval) (r : GenericRepo) (id : Option Nat)
    (opts : Option QueryOptions) : Except RepoErr Row :=
  match getStoreResult ev r.DB id opts with
  | none => .error (.domain errQueryParamEmpty)
  | some (.error e) =>
    if e = StoreErr.recordNotFound then
      .error (.domain (errRecordNotExist.wrapE e))
    else
      .error (.store e)
  | some (.ok row) => .ok row

/-- Count of the source: `Model(&entity)` then the options, then the store
count. -/
def GenericRepo.Count (ev : CondEval) (r : GenericRepo)
    (opts : Option QueryOptions) : Except RepoErr Int :=
  let query := applyQueryOptions (newQuery r.DB) opts
  match storeCount ev query with
  | .error e => .error (.store e)
  | .ok n => .ok n

/-- gorm `Transaction`, modelled from its documented semantics (external
collaborator): run the closure against a transactional handle seeded with the
current state; commit its writes when it returns no error, otherwise roll back
(the original state stays) and return the same error.  The pair carries the
resulting visible store state alongside the returned error. -/
def dbTransaction {ε : Type} (db : DBState) (fn : DBState → DBState × Option ε) :
    DBState × Option ε :=
  match fn db with
  | (db2, none) => (db2, none)
  | (_, some e) => (db, some e)

/-- Transaction of the source: delegate to the store transaction primitive on
the bound handle. -/
def GenericRepo.Transaction {ε : Type} (r : GenericRepo)
    (fn : DBState → DBState × Option ε) : DBState × Option ε :=
  dbTransaction r.DB fn

/-- WithTx of the source.  The Go method has a pointer receiver, so the pair
makes the post-state of the receiver explicit: the first component is the returned
repository, the second the receiver after the call — the body performs no
assignment to the fields of the receiver, it only constructs a fresh value. -/
def GenericRepo.WithTx (r : GenericRepo) (tx : DBState) : GenericRepo × GenericRepo :=
  (⟨tx, r.ErrorCode⟩, r)

/-- Row lists, named to keep the builtin list type visible inside the
`GenericRepo` namespace. -/
abbrev Rows := List Row

/-- List of the source: offset `(page-1)*pageSize` and limit `pageSize` are set
on the chain first, the query options are applied after, then `Find` runs. -/
def GenericRepo.List (ev : CondEval) (r : GenericRepo) (page pageSize : Int)
    (opts : Option QueryOptions) : Except RepoErr Rows :=
  let query := newQuery r.DB
  let offset := (page - 1) * pageSize
  let query := (query.offsetQ offset).limitQ pageSize
  let query := applyQueryOptions query opts
  match storeFind ev query with
  | .error e => .error (.store e)
  | .ok entities => .ok entities

/-- Modelled from the spec: UUID generation is an external collaborator; a
rendered UUID (`uuid.New().String()`) is canonically 36 characters, so only
the fixed length of the rendering is relied on. -/
def UUID : Type :=
  { s : String // s.length = 36 }

/-- A value stored in the gin key-value store or on the request context: a
string or something of another dynamic type (the Go code type-asserts to
`string`). -/
inductive GinVal where
  | str (s : String)
  | nonString
deriving DecidableEq, Repr

/-- The gin request context as the response helpers see it: request headers,
the gin key-value store (`c.Get`/`c.Set`), the values reachable through the
request context (`c.Request.Context().Value`), the value the UUID generator
returns at this call, and the clock instant (`time.Now().Unix()`). -/
structure GinContext where
  headers : List (String × String)
  keys : List (String × GinVal)
  ctxVals : List (String × GinVal)
  freshUUID : UUID
  now : Int

/-- gin `GetHeader`: the header value, or the empty string when absent. -/
def getHeader (c : GinContext) (k : String) : String :=
  (c.headers.lookup k).getD ""

/-- gin `c.Set`: stores a key-value pair in the gin context. -/
def ctxSet (c : GinContext) (k : String) (v : GinVal) : GinContext :=
  { c with keys := (k, v) :: c.keys }

/-- The Go pattern `if v, exists := ...; exists { if s, ok := v.(string); ok
&& s != "" { return s } }`: the looked-up value when it is present, a string,
and non-empty. -/
def strVal (v : Option GinVal) : Option String :=
  match v with
  | some (.str s) => if s ≠ "" then some s else none
  | _ => none

/-- getRequestID of the source: try the X-Request-ID header, then the gin
context key, then the request-context value (each used only when it is a
non-empty string), and otherwise generate a fresh UUID and store it in the gin
context.  Returns the id together with the context after the call. -/
def getRequestID (c : GinContext) : String × GinContext :=
  let reqID := getHeader c "X-Request-ID"
  if reqID ≠ "" then (reqID, c)
  else
    match strVal (c.keys.lookup "request_id") with
    | some s => (s, c)
    | none =>
      match strVal (c.ctxVals.lookup "request_id") with
      | some s => (s, c)
      | none =>
        let newID := c.freshUUID.val
        (newID, ctxSet c "request_id" (.str newID))

/-- getTraceIDFromContext of the source: the gin context key, then the
request-context value, then the X-Trace-ID header, else empty. -/
def getTraceIDFromContext (c : GinContext) : String :=
  match strVal (c.keys.lookup "trace_id") with
  | some s => s
  | none =>
    match strVal (c.ctxVals.lookup "trace_id") with
    | some s => s
    | none => getHeader c "X-Trace-ID"

/-- The API response envelope `Result[T]` of the source. -/
structure Result (T : Type) where
  Code : Nat
  Message : String
  Data : T
  RequestID : String
  Time : Int
  TraceID : String

/-- Success of the source: HTTP 200 with code 0, the optional first message (or
"success"), the data and the request id.  Returns the status, the body written
by `c.JSON`, and the context after the call. -/
def Success {T : Type} (c : GinContext) (data : T) (msg : List String) :
    Nat × Result T × GinContext :=
  let message := match msg with | [] => "success" | m :: _ => m
  let rid := getRequestID c
  (200, ⟨0, message, data, rid.1, c.now, ""⟩, rid.2)

/-- SuccessNoData of the source: as `Success` with an empty data object. -/
def SuccessNoData (c : GinContext) (msg : List String) :
    Nat × Result Unit × GinContext :=
  let message := match msg with | [] => "success" | m :: _ => m
  let rid := getRequestID c
  (200, ⟨0, message, (), rid.1, c.now, ""⟩, rid.2)

/-- An error value handed to `Error`: its message plus the optional duck-typed
capabilities `Code() int` and `HttpStatus() int`. -/
structure GoError where
  msg : String
  codeCap : Option Nat
  httpCap : Option Nat

/-- Error of the source: code from the `Code()` capability of the error (else the
unknown-error code), status from `HttpStatus()` (else 500), the error text as
message, the request id and the trace id.  The structured-log emission is an
external collaborator with no effect on the written response and is not
modelled. -/
def Error (c : GinContext) (err : GoError) : Nat × Result Unit × GinContext :=
  let errorCode := match err.codeCap with | some n => n | none => errUnknown.code
  let httpStatus := match err.httpCap with | some n => n | none => 500
  let message := err.msg
  let rid := getRequestID c
  let traceID := getTraceIDFromContext rid.2
  (httpStatus, ⟨errorCode, message, (), rid.1, c.now, traceID⟩, rid.2)

/-- A concrete condition evaluator used by witnesses and counterexamples: it
interprets the native filter string "val = ?" with one positional argument. -/
def demoEval : CondEval := fun c args r =>
  match c, args with
  | "val = ?", [a] => r.val == a
  | _, _ => false

/-- Restriction of a store state to the rows satisfying the
condition (rows are kept unconditionally when the condition is empty). -/
def DBState.restrict (ev : CondEval) (db : DBState) (o : QueryOptions) : DBState :=
  { db with rows :=
      db.rows.filter fun r => if o.Condition = "" then true else ev o.Condition o.Args r }

/-- Whether a generic modifier leaves the row-limit of the chain alone. -/
def noLimitOpt (o : Opt) : Bool :=
  match o with
  | .limit _ => false
  | _ => true

/-- The order-by clauses a modifier sequence contributes. -/
def ordersOfOpts : List Opt → List (String × Bool)
  | [] => []
  | .orderBy k d :: t => (k, d) :: ordersOfOpts t
  | .limit _ :: t => ordersOfOpts t
  | .locking _ :: t => ordersOfOpts t

/-- The where clauses an option value contributes. -/
def condClauses (opts : Option QueryOptions) : List (String × List Nat) :=
  match opts with
  | none => []
  | some o => if o.Condition ≠ "" then [(o.Condition, o.Args)] else []

/-- The order-by clauses an option value contributes. -/
def ordersClauses (opts : Option QueryOptions) : List (String × Bool) :=
  match opts with
  | none => []
  | some o => ordersOfOpts o.Opts

/-- A one-row store used by witnesses and counterexamples. -/
def dbOne : DBState := ⟨[⟨1, 5⟩], none⟩

/-- A two-row store used by witnesses and counterexamples. -/
def dbTwo : DBState := ⟨[⟨1, 1⟩, ⟨2, 2⟩], none⟩

deriving instance DecidableEq for Except

/-! Helper lemmas: how each builder step acts on each field of the chain. -/

theorem applyOpt_db (q : Query) (o : Opt) : (applyOpt q o).db = q.db := by
  cases o <;> rfl

theorem applyOpt_wheres (q : Query) (o : Opt) : (applyOpt q o).wheres = q.wheres := by
  cases o <;> rfl

theorem applyOpt_qoffset (q : Query) (o : Opt) : (applyOpt q o).qoffset = q.qoffset := by
  cases o <;> rfl

theorem applyOpt_orders (q : Query) (o : Opt) :
    (applyOpt q o).orders = q.orders ++ ordersOfOpts [o] := by
  cases o <;> simp [applyOpt, ordersOfOpts, Query.limitQ]

theorem applyOpt_qlimit (q : Query) (o : Opt) (h : noLimitOpt o = true) :
    (applyOpt q o).qlimit = q.qlimit := by
  cases o <;> simp [noLimitOpt] at h ⊢ <;> rfl

theorem optionsApply_db (l : List Opt) (q : Query) : (optionsApply q l).db = q.db := by
  induction l generalizing q with
  | nil => rfl
  | cons o t ih =>
    show (optionsApply (applyOpt q o) t).db = q.db
    rw [ih, applyOpt_db]

theorem optionsApply_wheres (l : List Opt) (q : Query) :
    (optionsApply q l).wheres = q.wheres := by
  induction l generalizing q with
  | nil => rfl
  | cons o t ih =>
    show (optionsApply (applyOpt q o) t).wheres = q.wheres
    rw [ih, applyOpt_wheres]

theorem optionsApply_qoffset (l : List Opt) (q : Query) :
    (optionsApply q l).qoffset = q.qoffset := by
  induction l generalizing q with
  | nil => rfl
  | cons o t ih =>
    show (optionsApply (applyOpt q o) t).qoffset = q.qoffset
    rw [ih, applyOpt_qoffset]

theorem optionsApply_orders (l : List Opt) (q : Query) :
    (optionsApply q l).orders = q.orders ++ ordersOfOpts l := by
  induction l generalizing q with
  | nil => simp [optionsApply, ordersOfOpts]
  | cons o t ih =>
    show (optionsApply (applyOpt q o) t).orders = q.orders ++ ordersOfOpts (o :: t)
    rw [ih, applyOpt_orders]
    cases o <;> simp [ordersOfOpts]

theorem optionsApply_qlimit (l : List Opt) (q : Query) (h : l.all noLimitOpt = true) :
    (optionsApply q l).qlimit = q.qlimit := by
  induction l generalizing q with
  | nil => rfl
  | cons o t ih =>
    simp only [List.all_cons, Bool.and_eq_true] at h
    show (optionsApply (applyOpt q o) t).qlimit = q.qlimit
    rw [ih _ h.2, applyOpt_qlimit _ _ h.1]

theorem foldlPreload_db (ps : List String) (q : Query) :
    (ps.foldl Query.preloadQ q).db = q.db := by
  induction ps generalizing q with
  | nil => rfl
  | cons p t ih =>
    show (t.foldl Query.preloadQ (q.preloadQ p)).db = q.db
    rw [ih]; rfl

theorem foldlPreload_wheres (ps : List String) (q : Query) :
    (ps.foldl Query.preloadQ q).wheres = q.wheres := by
  induction ps generalizing q with
  | nil => rfl
  | cons p t ih =>
    show (t.foldl Query.preloadQ (q.preloadQ p)).wheres = q.wheres
    rw [ih]; rfl

theorem foldlPreload_orders (ps : List String) (q : Query) :
    (ps.foldl Query.preloadQ q).orders = q.orders := by
  induction ps generalizing q with
  | nil => rfl
  | cons p t ih =>
    show (t.foldl Query.preloadQ (q.preloadQ p)).orders = q.orders
    rw [ih]; rfl

theorem foldlPreload_qoffset (ps : List String) (q : Query) :
    (ps.foldl Query.preloadQ q).qoffset = q.qoffset := by
  induction ps generalizing q with
  | nil => rfl
  | cons p t ih =>
    show (t.foldl Query.preloadQ (q.preloadQ p)).qoffset = q.qoffset
    rw [ih]; rfl

theorem foldlPreload_qlimit (ps : List String) (q : Query) :
    (ps.foldl Query.preloadQ q).qlimit = q.qlimit := by
  induction ps generalizing q with
  | nil => rfl
  | cons p t ih =>
    show (t.foldl Query.preloadQ (q.preloadQ p)).qlimit = q.qlimit
    rw [ih]; rfl

theorem applyQueryOptions_db (q : Query) (opts : Option QueryOptions) :
    (applyQueryOptions q opts).db = q.db := by
  cases opts with
  | none => rfl
  | some o =>
    unfold applyQueryOptions
    by_cases hc : o.Condition ≠ "" <;> by_cases hl : o.Opts.length > 0 <;>
      simp [hc, hl, Query.whereQ, optionsApply_db, foldlPreload_db]

theorem applyQueryOptions_wheres (q : Query) (opts : Option QueryOptions) :
    (applyQueryOptions q opts).wheres = q.wheres ++ condClauses opts := by
  cases opts with
  | none => simp [applyQueryOptions, condClauses]
  | some o =>
    unfold applyQueryOptions condClauses
    by_cases hc : o.Condition ≠ "" <;> by_cases hl : o.Opts.length > 0 <;>
      simp [hc, hl, Query.whereQ, optionsApply_wheres, foldlPreload_wheres]

theorem applyQueryOptions_orders (q : Query) (opts : Option QueryOptions) :
    (applyQueryOptions q opts).orders = q.orders ++ ordersClauses opts := by
  cases opts with
  | none => simp [applyQueryOptions, ordersClauses]
  | some o =>
    unfold applyQueryOptions ordersClauses
    by_cases hc : o.Condition ≠ "" <;> by_cases hl : o.Opts.length > 0 <;>
      simp [hc, hl, Query.whereQ, optionsApply_orders, foldlPreload_orders]
    all_goals
      have h0 : o.Opts = [] := List.length_eq_zero.mp (by omega)
      simp [h0, ordersOfOpts]

theorem applyQueryOptions_qoffset (q : Query) (opts : Option QueryOptions) :
    (applyQueryOptions q opts).qoffset = q.qoffset := by
  cases opts with
  | none => rfl
  | some o =>
    unfold applyQueryOptions
    by_cases hc : o.Condition ≠ "" <;> by_cases hl : o.Opts.length > 0 <;>
      simp [hc, hl, Query.whereQ, optionsApply_qoffset, foldlPreload_qoffset]

theorem applyQueryOptions_qlimit (q : Query) (o : QueryOptions)
    (h : o.Opts.all noLimitOpt = true) :
    (applyQueryOptions q (some o)).qlimit = q.qlimit := by
  unfold applyQueryOptions
  by_cases hc : o.Condition ≠ "" <;> by_cases hl : o.Opts.length > 0 <;>
    simp [hc, hl, Query.whereQ, optionsApply_qlimit _ _ h, foldlPreload_qlimit]

theorem Get_id (ev : CondEval) (r : GenericRepo) (i : Nat) (opts : Option QueryOptions) :
    GenericRepo.Get ev r (some i) opts =
      match storeFirst ev (applyQueryOptions (newQuery r.DB) opts) (some i) with
      | .error e =>
        if e = StoreErr.recordNotFound then
          .error (.domain (errRecordNotExist.wrapE e))
        else
          .error (.store e)
      | .ok row => .ok row := by
  unfold GenericRepo.Get getStoreResult
  simp only []
  cases storeFirst ev (applyQueryOptions (newQuery r.DB) opts) (some i) <;> rfl

theorem storeFirst_congr (ev : CondEval) (q1 q2 : Query) (i : Nat)
    (hf : q1.db.fault = q2.db.fault)
    (ho : q1.orders = q2.orders)
    (hfil : q1.db.rows.filter (fun r => matchRow ev q1.wheres r && r.id == i) =
      q2.db.rows.filter (fun r => matchRow ev q2.wheres r && r.id == i)) :
    storeFirst ev q1 (some i) = storeFirst ev q2 (some i) := by
  unfold storeFirst
  simp only []
  rw [hf, ho, hfil]

/-- C2: for every call to Get that reaches the store, the record-not-found
sentinel is mapped to the record-not-exist domain error wrapping the sentinel
(unwrapping yields the sentinel back), and every other store error is
returned to the caller unmodified. -/
theorem get_store_error_mapping (ev : CondEval) (db : DBState) (code : Nat)
    (id : Option Nat) (opts : Option QueryOptions) (e : StoreErr)
    (h : getStoreResult ev db id opts = some (.error e)) :
    (e = StoreErr.recordNotFound →
      GenericRepo.Get ev ⟨db, code⟩ id opts =
        .error (.domain (errRecordNotExist.wrapE StoreErr.recordNotFound)) ∧
      (errRecordNotExist.wrapE StoreErr.recordNotFound).unwrapE =
        some StoreErr.recordNotFound) ∧
    (e ≠ StoreErr.recordNotFound →
      GenericRepo.Get ev ⟨db, code⟩ id opts = .error (.store e)) := by
  unfold GenericRepo.Get
  rw [show (⟨db, code⟩ : GenericRepo).DB = db from rfl, h]
  constructor
  · intro he
    subst he
    simp [DomainErr.wrapE, DomainErr.unwrapE]
  · intro he
    simp [he]

/-- Witness for C2: on the empty store, Get by id 1 hits the record-not-found
sentinel and returns the wrapping domain error. -/
theorem get_store_error_mapping_witness :
    GenericRepo.Get demoEval ⟨⟨[], none⟩, errNotFound.code⟩ (some 1) none =
      .error (.domain (errRecordNotExist.wrapE StoreErr.recordNotFound)) :=
  ((get_store_error_mapping demoEval ⟨[], none⟩ errNotFound.code (some 1) none
      StoreErr.recordNotFound (by decide)).1 rfl).1

/-- C4: Get with a nil id and nil options, or options with an empty condition,
returns the empty-query-parameter domain error for every store state, and the
store phase is never entered. -/
theorem get_empty_query_param (ev : CondEval) (db : DBState) (code : Nat)
    (opts : Option QueryOptions)
    (h : opts = none ∨ ∃ o, opts = some o ∧ o.Condition = "") :
    GenericRepo.Get ev ⟨db, code⟩ none opts = .error (.domain errQueryParamEmpty) ∧
    getStoreResult ev db none opts = none := by
  have hn : getStoreResult ev db none opts = none := by
    rcases h with h | ⟨o, ho, hc⟩
    · subst h; rfl
    · subst ho; simp [getStoreResult, hc]
  refine ⟨?_, hn⟩
  unfold GenericRepo.Get
  rw [show (⟨db, code⟩ : GenericRepo).DB = db from rfl, hn]

/-- Witness for C4: nil id and an all-empty options value on a concrete store. -/
theorem get_empty_query_param_witness :
    GenericRepo.Get demoEval ⟨dbOne, errNotFound.code⟩ none (some ⟨"", [], [], []⟩) =
      .error (.domain errQueryParamEmpty) ∧
    getStoreResult demoEval dbOne none (some ⟨"", [], [], []⟩) = none :=
  get_empty_query_param demoEval dbOne errNotFound.code (some ⟨"", [], [], []⟩)
    (Or.inr ⟨⟨"", [], [], []⟩, rfl, rfl⟩)

/-- C6: applyQueryOptions composes exactly in the order the spec fixes —
preloads in sequence order, then the generic modifiers in sequence order, then
the condition with its args — and nil options behave as an all-empty value:
both leave the chain unchanged. -/
theorem applyQueryOptions_composition_order (q : Query) (o : Option QueryOptions) :
    applyQueryOptions q o = applyQueryOptionsSpec q o ∧
    applyQueryOptions q none = q ∧
    applyQueryOptions q (some ⟨"", [], [], []⟩) = q := by
  refine ⟨?_, rfl, by simp [applyQueryOptions, optionsApply]⟩
  cases o with
  | none => rfl
  | some o =>
    unfold applyQueryOptions applyQueryOptionsSpec
    cases ho : o.Opts with
    | nil => simp [ho, optionsApply]
    | cons a t => simp [ho]

/-- C7: WithTx returns a fresh repository bound to the transactional handle
with the not-found code of the receiver, and leaves the receiver itself unchanged,
so its subsequent operations still target the original handle. -/
theorem withTx_rebinds_without_mutation (ev : CondEval) (r : GenericRepo) (tx : DBState)
    (id : Option Nat) (opts : Option QueryOptions) :
    (GenericRepo.WithTx r tx).1.DB = tx ∧
    (GenericRepo.WithTx r tx).1.ErrorCode = r.ErrorCode ∧
    (GenericRepo.WithTx r tx).2 = r ∧
    GenericRepo.Get ev (GenericRepo.WithTx r tx).2 id opts = GenericRepo.Get ev r id opts :=
  ⟨rfl, rfl, rfl, rfl⟩

/-- C8: Transaction runs the closure against a transactional handle seeded with
the state of the repository, commits exactly when the closure returns no error, and
on an error rolls back — the visible state is the original one and the very
same error value is returned. -/
theorem transaction_commit_rollback {ε : Type} (r : GenericRepo)
    (fn : DBState → DBState × Option ε) :
    (∀ db2, fn r.DB = (db2, none) → GenericRepo.Transaction r fn = (db2, none)) ∧
    (∀ db2 e, fn r.DB = (db2, some e) → GenericRepo.Transaction r fn = (r.DB, some e)) := by
  constructor
  · intro db2 hfn
    unfold GenericRepo.Transaction dbTransaction
    rw [hfn]
  · intro db2 e hfn
    unfold GenericRepo.Transaction dbTransaction
    rw [hfn]

/-- Witness for C8: a closure that inserts a row and then fails leaves the
store unchanged and its error is returned. -/
theorem transaction_commit_rollback_witness :
    GenericRepo.Transaction (ε := Nat) ⟨⟨[], none⟩, errNotFound.code⟩
        (fun db => (⟨⟨1, 1⟩ :: db.rows, db.fault⟩, some 5)) =
      (⟨[], none⟩, some 5) :=
  (transaction_commit_rollback ⟨⟨[], none⟩, errNotFound.code⟩
      (fun db => (⟨⟨1, 1⟩ :: db.rows, db.fault⟩, some 5))).2 ⟨[⟨1, 1⟩], none⟩ 5 rfl

/-- C9: the configured not-found code is ignored — on zero matching rows, Get
of a repository configured with code 9999 returns the fixed record-not-exist
domain error, whose code differs from the configured one. -/
theorem get_ignores_configured_error_code :
    GenericRepo.Get demoEval ⟨⟨[], none⟩, 9999⟩ (some 1) none =
      .error (.domain ⟨errRecordNotExist.code, errRecordNotExist.msg,
        some StoreErr.recordNotFound⟩) ∧
    errRecordNotExist.code ≠ 9999 := by
  exact ⟨rfl, by decide⟩

/-- C3: the count computed by Count is identical when the Preloads component
of the options is emptied — preloads are a no-op for counting. -/
theorem count_ignores_preloads (ev : CondEval) (r : GenericRepo) (o : QueryOptions) :
    GenericRepo.Count ev r (some o) =
      GenericRepo.Count ev r (some { o with Preloads := [] }) := by
  unfold GenericRepo.Count
  have hsc : storeCount ev (applyQueryOptions (newQuery r.DB) (some o)) =
      storeCount ev (applyQueryOptions (newQuery r.DB) (some { o with Preloads := [] })) := by
    unfold storeCount
    rw [applyQueryOptions_db, applyQueryOptions_db,
      applyQueryOptions_wheres, applyQueryOptions_wheres]
    rfl
  exact congrArg
    (fun res : Except StoreErr Int =>
      (match res with
      | Except.error e => Except.error (RepoErr.store e)
      | Except.ok n => Except.ok n : Except RepoErr Int)) hsc

/-- Counterexample to C1 as stated: with one row (id 1, val 5), Get by id 1
under the condition "val = ?" with arg 7 differs from Get by id 1 with the
condition emptied — the condition is applied, not ignored. -/
theorem get_by_id_counterexample :
    GenericRepo.Get demoEval ⟨dbOne, errNotFound.code⟩ (some 1)
        (some ⟨"val = ?", [7], [], []⟩) ≠
      GenericRepo.Get demoEval ⟨dbOne, errNotFound.code⟩ (some 1)
        (some ⟨"", [], [], []⟩) := by
  decide

/-- C1 amended: when id is non-nil the Condition and Args are not ignored but
applied as an additional conjunct — Get by id under options equals Get by id
with an emptied condition against the store restricted to the rows satisfying
the condition (preloads and generic modifiers still applied); the two coincide
exactly when the condition is empty. -/
theorem get_by_id_applies_condition (ev : CondEval) (db : DBState) (code : Nat)
    (i : Nat) (o : QueryOptions) :
    GenericRepo.Get ev ⟨db, code⟩ (some i) (some o) =
      GenericRepo.Get ev ⟨DBState.restrict ev db o, code⟩ (some i)
        (some { o with Condition := "", Args := [] }) := by
  rw [Get_id, Get_id]
  have hsf : storeFirst ev
      (applyQueryOptions (newQuery (⟨db, code⟩ : GenericRepo).DB) (some o)) (some i) =
      storeFirst ev
        (applyQueryOptions (newQuery (⟨DBState.restrict ev db o, code⟩ : GenericRepo).DB)
          (some { o with Condition := "", Args := [] })) (some i) := by
    apply storeFirst_congr
    · rw [applyQueryOptions_db, applyQueryOptions_db]
      rfl
    · rw [applyQueryOptions_orders, applyQueryOptions_orders]
      rfl
    · rw [applyQueryOptions_wheres, applyQueryOptions_wheres,
        applyQueryOptions_db, applyQueryOptions_db]
      show db.rows.filter _ = (DBState.restrict ev db o).rows.filter _
      unfold DBState.restrict
      simp only [newQuery, List.nil_append]
      by_cases hc : o.Condition = ""
      · simp only [condClauses, hc, ite_not]
        simp [matchRow, List.filter_true]
      · simp only [condClauses, hc, if_neg, ite_not, if_pos]
        rw [List.filter_filter]
        apply List.filter_congr
        intro r _
        simp only [matchRow, List.all_cons, List.all_nil, hc]
        cases hev : ev o.Condition o.Args r <;> cases hid : r.id == i <;> simp [hev, hid]
  rw [hsf]

/-- Offset/limit decomposition of execution: a chain with paging set behaves as
the same chain without paging followed by drop and take. -/
theorem execRows_paged (ev : CondEval) (q1 q2 : Query) (off ps : Int)
    (hdb : q1.db = q2.db) (hw : q1.wheres = q2.wheres) (ho : q1.orders = q2.orders)
    (h1off : q1.qoffset = some off) (h1lim : q1.qlimit = some ps)
    (h2off : q2.qoffset = none) (h2lim : q2.qlimit = none)
    (hps : ¬ ps < 0) :
    execRows ev q1 = ((execRows ev q2).drop off.toNat).take ps.toNat := by
  unfold execRows
  rw [hdb, hw, ho, h1off, h1lim, h2off, h2lim]
  simp only []
  rw [if_neg hps]
  simp [List.drop_zero]

/-- C5 amended: for page ≥ 1 and pageSize ≥ 1, when no generic modifier is a
row-limiting one, List returns exactly the rows of the option-composed query
starting at offset (page-1)*pageSize and at most pageSize of them; the code
sets offset/limit before the option composition, so conditions and ordering
still take effect before paging, but a row-limiting modifier would override
the pageSize limit. -/
theorem list_respects_paging (ev : CondEval) (db : DBState) (code : Nat)
    (page pageSize : Int) (o : QueryOptions)
    (hp : 1 ≤ page) (hs : 1 ≤ pageSize)
    (hnl : o.Opts.all noLimitOpt = true) (hf : db.fault = none) :
    GenericRepo.List ev ⟨db, code⟩ page pageSize (some o) =
      .ok (((execRows ev (applyQueryOptions (newQuery db) (some o))).drop
          ((page - 1) * pageSize).toNat).take pageSize.toNat) ∧
    ∀ l, GenericRepo.List ev ⟨db, code⟩ page pageSize (some o) = .ok l →
      l.length ≤ pageSize.toNat := by
  have hexec : execRows ev
      (applyQueryOptions (((newQuery db).offsetQ ((page - 1) * pageSize)).limitQ pageSize)
        (some o)) =
      ((execRows ev (applyQueryOptions (newQuery db) (some o))).drop
        ((page - 1) * pageSize).toNat).take pageSize.toNat := by
    apply execRows_paged ev _ _ ((page - 1) * pageSize) pageSize
    · rw [applyQueryOptions_db, applyQueryOptions_db]
      rfl
    · rw [applyQueryOptions_wheres, applyQueryOptions_wheres]
      rfl
    · rw [applyQueryOptions_orders, applyQueryOptions_orders]
      rfl
    · rw [applyQueryOptions_qoffset]
      rfl
    · rw [applyQueryOptions_qlimit _ _ hnl]
      rfl
    · rw [applyQueryOptions_qoffset]
      rfl
    · rw [applyQueryOptions_qlimit _ _ hnl]
      rfl
    · omega
  have hdbP : (applyQueryOptions
      (((newQuery db).offsetQ ((page - 1) * pageSize)).limitQ pageSize) (some o)).db = db := by
    rw [applyQueryOptions_db]
    rfl
  have hmain : GenericRepo.List ev ⟨db, code⟩ page pageSize (some o) =
      .ok (((execRows ev (applyQueryOptions (newQuery db) (some o))).drop
        ((page - 1) * pageSize).toNat).take pageSize.toNat) := by
    unfold GenericRepo.List storeFind
    simp only []
    rw [hdbP, hf]
    simp only []
    rw [hexec]
  refine ⟨hmain, ?_⟩
  intro l hl
  rw [hmain] at hl
  cases hl
  exact List.length_take_le _ _

/-- Counterexample to C5 as stated: with two rows, page 1 and pageSize 1, a
row-limiting modifier (limit 2) among the options makes List return 2 rows —
more than pageSize — because the code applies offset/limit before the option
composition. -/
theorem list_paging_counterexample :
    GenericRepo.List demoEval ⟨dbTwo, errNotFound.code⟩ 1 1
        (some ⟨"", [], [Opt.limit 2], []⟩) = .ok [⟨1, 1⟩, ⟨2, 2⟩] ∧
    ¬ (([⟨1, 1⟩, ⟨2, 2⟩] : List Row).length ≤ 1) := by
  decide

/-- Witness for C5: page 2 of size 1 over two rows ordered by id yields the
second row. -/
theorem list_respects_paging_witness :
    GenericRepo.List demoEval ⟨dbTwo, errNotFound.code⟩ 2 1
        (some ⟨"", [], [Opt.orderBy "id" false], []⟩) = .ok [⟨2, 2⟩] := by
  have h := (list_respects_paging demoEval dbTwo errNotFound.code 2 1
      ⟨"", [], [Opt.orderBy "id" false], []⟩ (by decide) (by decide) (by decide) rfl).1
  exact h.trans (by decide)

theorem strVal_ne_empty (v : Option GinVal) (s : String) (h : strVal v = some s) :
    s ≠ "" := by
  cases v with
  | none => simp [strVal] at h
  | some g =>
    cases g with
    | nonString => simp [strVal] at h
    | str s0 =>
      by_cases h0 : s0 = ""
      · simp [strVal, h0] at h
      · simp [strVal, h0] at h
        subst h
        exact h0

theorem UUID.val_ne_empty (u : UUID) : u.val ≠ "" := by
  intro h
  have h36 := u.property
  rw [h] at h36
  exact absurd h36 (by decide)

theorem getRequestID_ne_empty (c : GinContext) : (getRequestID c).1 ≠ "" := by
  simp only [getRequestID]
  by_cases h1 : getHeader c "X-Request-ID" = ""
  · rw [if_neg (by simp [h1])]
    split
    · next s hk => exact strVal_ne_empty _ s hk
    · split
      · next s hc2 => exact strVal_ne_empty _ s hc2
      · simpa using UUID.val_ne_empty c.freshUUID
  · rw [if_pos h1]
    simpa using h1

/-- C10: every response written by Success, SuccessNoData or Error carries a
non-empty RequestID, because the request-id lookup (header, then gin key, then
request-context value, else a freshly generated UUID) never returns an empty
string. -/
theorem responses_carry_request_id {T : Type} (c : GinContext) (d : T)
    (msg : List String) (e : GoError) :
    (getRequestID c).1 ≠ "" ∧
    (Success c d msg).2.1.RequestID ≠ "" ∧
    (SuccessNoData c msg).2.1.RequestID ≠ "" ∧
    (Error c e).2.1.RequestID ≠ "" := by
  have h := getRequestID_ne_empty c
  exact ⟨h, h, h, h⟩
